import Mathlib

/-!
Shallow embedding of the recipe-site core logic:
`src/lib/utils.ts` (unit conversion and ingredient scaling) and
`src/lib/api.ts` (the mock recipe query pipeline: filter, sort, paginate).

JavaScript numbers are modelled as exact rationals (`ℚ`); all quantities
appearing in the claims are decided far from float-precision boundaries.
`Math.round` is `⌊x + 1/2⌋` (JS rounds half toward +∞).  JS string
primitives that only touch ASCII data here (`toLowerCase`, `split`,
`includes`) are modelled by structurally recursive functions on the
character list of the string, which agree with the JS semantics on every
string this code base feeds them.
-/

namespace RecipeSite

/-- JS `Math.round`: round half toward positive infinity. -/
def jround (x : ℚ) : ℤ := ⌊x + 1/2⌋

/-- JS `String.prototype.toLowerCase`, which on the ASCII letters and the
degree sign appearing in this code base lowers `A`-`Z` and leaves every
other character unchanged, exactly as `Char.toLower` does. -/
def jsToLower (s : String) : String := ⟨s.data.map Char.toLower⟩

/-- A unit system, `src/types/recipe` `UnitSystem`. -/
inductive UnitSystem where
  | metric
  | imperial
deriving DecidableEq

/-- One side of a conversion-table entry: multiplier and target unit label. -/
structure ConvTarget where
  value : ℚ
  unit : String
deriving DecidableEq

/-- A conversion-table entry (`UnitConversion` in `src/types/recipe`). -/
structure UnitConversion where
  metric : ConvTarget
  imperial : ConvTarget
deriving DecidableEq

/-- The `conversions` table literal of `convertUnits`, `src/lib/utils.ts`
lines 57-103, keyed by the exact string keys of the source object. -/
def conversions (key : String) : Option UnitConversion :=
  if key = "g" then some ⟨⟨1, "g"⟩, ⟨35274/1000000, "oz"⟩⟩
  else if key = "kg" then some ⟨⟨1, "kg"⟩, ⟨220462/100000, "lb"⟩⟩
  else if key = "oz" then some ⟨⟨283495/10000, "g"⟩, ⟨1, "oz"⟩⟩
  else if key = "lb" then some ⟨⟨453592/1000000, "kg"⟩, ⟨1, "lb"⟩⟩
  else if key = "ml" then some ⟨⟨1, "ml"⟩, ⟨33814/1000000, "fl oz"⟩⟩
  else if key = "l" then some ⟨⟨1, "l"⟩, ⟨175975/100000, "pint"⟩⟩
  else if key = "fl oz" then some ⟨⟨295735/10000, "ml"⟩, ⟨1, "fl oz"⟩⟩
  else if key = "pint" then some ⟨⟨568261/1000, "ml"⟩, ⟨1, "pint"⟩⟩
  else if key = "°C" then some ⟨⟨1, "°C"⟩, ⟨1, "°F"⟩⟩
  else if key = "°F" then some ⟨⟨1, "°C"⟩, ⟨1, "°F"⟩⟩
  else none

/-- `ConvTarget` selection `conversion[targetSystem]`. -/
def UnitConversion.select (c : UnitConversion) : UnitSystem → ConvTarget
  | .metric => c.metric
  | .imperial => c.imperial

/-- `convertUnits`, `src/lib/utils.ts` lines 52-128.  The table lookup is
`conversions[unit.toLowerCase()]` and the function returns
`{value: quantity, unit}` when the lookup misses, before the temperature
branches are reached. -/
def convertUnits (quantity : ℚ) (unit : String) (targetSystem : UnitSystem) :
    ℚ × String :=
  match conversions (jsToLower unit) with
  | none => (quantity, unit)
  | some conversion =>
    if unit = "°C" ∧ targetSystem = .imperial then
      ((jround (quantity * 9 / 5 + 32) : ℤ), "°F")
    else if unit = "°F" ∧ targetSystem = .metric then
      ((jround ((quantity - 32) * 5 / 9) : ℤ), "°C")
    else
      let target := conversion.select targetSystem
      let convertedValue := quantity * target.value
      let rounded : ℚ :=
        if convertedValue < 1 then (jround (convertedValue * 100) : ℚ) / 100
        else (jround (convertedValue * 10) : ℚ) / 10
      (rounded, target.unit)

/-- `scaleIngredientQuantity`, `src/lib/utils.ts` lines 133-149. -/
def scaleIngredientQuantity
    (originalQuantity originalServings newServings : ℚ) : ℚ :=
  let scaleFactor := newServings / originalServings
  let scaledQuantity := originalQuantity * scaleFactor
  if scaledQuantity < 1 then (jround (scaledQuantity * 100) : ℚ) / 100
  else if scaledQuantity < 10 then (jround (scaledQuantity * 10) : ℚ) / 10
  else (jround scaledQuantity : ℚ)

/-- A recipe record, restricted to the fields the query pipeline of
`src/lib/api.ts` reads: `title`, `description`, `cuisine`, `difficulty`,
`tags`, `prepTimeMins`, `datePublished`. -/
structure Recipe where
  title : String
  description : String
  cuisine : String
  difficulty : String
  tags : List String
  prepTimeMins : ℕ
  datePublished : String
deriving DecidableEq

/-- `RecipeFilters` from `src/types/recipe`: every field optional. -/
structure RecipeFilters where
  search : Option String
  cuisine : Option (List String)
  tags : Option (List String)
  maxPrepTime : Option ℕ
  difficulty : Option (List String)
deriving DecidableEq

/-- Does `needle` occur at the head of `hay`? -/
def startsWithL (needle hay : List Char) : Bool :=
  match needle, hay with
  | [], _ => true
  | _ :: _, [] => false
  | c :: cs, h :: hs => c = h && startsWithL cs hs

/-- JS `hay.includes(needle)` on character lists: substring occurrence. -/
def containsSubL (needle hay : List Char) : Bool :=
  match hay with
  | [] => startsWithL needle []
  | _ :: hs => startsWithL needle hay || containsSubL needle hs

/-- JS `hay.includes(needle)` for strings. -/
def jsIncludes (hay needle : String) : Bool := containsSubL needle.data hay.data

/-- The search predicate of `getMockRecipes`, `src/lib/api.ts` lines
155-161: case-insensitive substring match on title, description or a tag. -/
def searchMatches (term : String) (r : Recipe) : Bool :=
  let searchLower := jsToLower term
  jsIncludes (jsToLower r.title) searchLower ||
  jsIncludes (jsToLower r.description) searchLower ||
  r.tags.any fun tag => jsIncludes (jsToLower tag) searchLower

/-- The `filters.search` stage, `src/lib/api.ts` lines 155-162, guarded
by the JS truthiness of the field: skipped when absent or empty. -/
def searchStep (o : Option String) (l : List Recipe) : List Recipe :=
  match o with
  | some s => if s = "" then l else l.filter (searchMatches s)
  | none => l

/-- The `filters.cuisine` stage, `src/lib/api.ts` lines 164-168, guarded
by `filters.cuisine?.length`: skipped when absent or empty. -/
def cuisineStep (o : Option (List String)) (l : List Recipe) : List Recipe :=
  match o with
  | some cs => if cs = [] then l else l.filter fun r => cs.contains r.cuisine
  | none => l

/-- The `filters.tags` stage, `src/lib/api.ts` lines 170-174, guarded by
`filters.tags?.length`: skipped when absent or empty. -/
def tagsStep (o : Option (List String)) (l : List Recipe) : List Recipe :=
  match o with
  | some ts => if ts = [] then l else
      l.filter fun r => ts.any fun tag => r.tags.contains tag
  | none => l

/-- The `filters.maxPrepTime` stage, `src/lib/api.ts` lines 176-180,
guarded by the truthiness of the number: skipped when absent or `0`. -/
def maxPrepStep (o : Option ℕ) (l : List Recipe) : List Recipe :=
  match o with
  | some n => if n = 0 then l else l.filter fun r => r.prepTimeMins ≤ n
  | none => l

/-- The `filters.difficulty` stage, `src/lib/api.ts` lines 182-186,
guarded by `filters.difficulty?.length`: skipped when absent or empty. -/
def difficultyStep (o : Option (List String)) (l : List Recipe) :
    List Recipe :=
  match o with
  | some ds => if ds = [] then l else
      l.filter fun r => ds.contains r.difficulty
  | none => l

/-- The filter phase of `getMockRecipes`, `src/lib/api.ts` lines 154-187:
the five truthiness-guarded stages applied in source order. -/
def applyFilters (f : RecipeFilters) (recipes : List Recipe) : List Recipe :=
  difficultyStep f.difficulty
    (maxPrepStep f.maxPrepTime
      (tagsStep f.tags
        (cuisineStep f.cuisine
          (searchStep f.search recipes))))

/-- The sort fields of `RecipeSort` exercised by the pipeline claims;
the source indexes `a[sort.field]` generically. -/
inductive SortField where
  | difficulty
  | datePublished
deriving DecidableEq

/-- Sort direction. -/
inductive SortDir where
  | asc
  | desc
deriving DecidableEq

/-- `RecipeSort` from `src/types/recipe`. -/
structure RecipeSort where
  field : SortField
  direction : SortDir
deriving DecidableEq

/-- JS `s.split(c)` on character lists. -/
def splitOnChar (c : Char) : List Char → List (List Char)
  | [] => [[]]
  | x :: xs =>
    let r := splitOnChar c xs
    if x = c then [] :: r
    else
      match r with
      | [] => [[x]]
      | h :: t => (x :: h) :: t

/-- Numeric value of a digit list (most significant first). -/
def digitsVal (l : List Char) : ℕ :=
  l.foldl (fun n c => n * 10 + (c.toNat - 48)) 0

/-- Nonempty and all ASCII digits. -/
def allDigits (l : List Char) : Bool := !l.isEmpty && l.all Char.isDigit

/-- Gregorian leap year. -/
def isLeapYear (y : ℕ) : Bool := (y % 4 = 0 && y % 100 ≠ 0) || y % 400 = 0

/-- Days in a month. -/
def daysInMonth (y m : ℕ) : ℕ :=
  if m = 2 then (if isLeapYear y then 29 else 28)
  else if m = 4 ∨ m = 6 ∨ m = 9 ∨ m = 11 then 30
  else 31

/-- Models `new Date(s.split('/').reverse().join('-'))` of
`src/lib/api.ts` lines 197-198 followed by reading the timestamp:
the reversed-and-rejoined tokens are accepted exactly when they form an
ISO `YYYY-MM-DD` date with in-range month and day, and the returned
number `y*10000 + m*100 + d` is order-isomorphic to the timestamp of
that date; `none` models an Invalid Date (`NaN` timestamp). -/
def parseDateRev (s : String) : Option ℕ :=
  match (splitOnChar '/' s.data).reverse with
  | [y, m, d] =>
    if allDigits y && allDigits m && allDigits d &&
        y.length = 4 && m.length = 2 && d.length = 2 then
      let yn := digitsVal y
      let mn := digitsVal m
      let dn := digitsVal d
      if 1 ≤ mn ∧ mn ≤ 12 ∧ 1 ≤ dn ∧ dn ≤ daysInMonth yn mn then
        some (yn * 10000 + mn * 100 + dn)
      else none
    else none
  | _ => none

/-- Lexicographic order on character lists by code point, the order JS
`<` uses on strings (UTF-16 code units; identical on the ASCII labels
compared here). -/
def ltCharList : List Char → List Char → Bool
  | [], [] => false
  | [], _ :: _ => true
  | _ :: _, [] => false
  | a :: as, b :: bs =>
    a.toNat < b.toNat || (a.toNat = b.toNat && ltCharList as bs)

/-- JS `a < b` on strings. -/
def jsLtString (a b : String) : Bool := ltCharList a.data b.data

/-- The comparator of the sort phase of `getMockRecipes`, `src/lib/api.ts`
lines 191-204.  For `datePublished` the operands are first converted by
reversing the `/`-separated tokens; if either conversion yields an
Invalid Date its timestamp is `NaN`, both `aValue < bValue` and
`aValue > bValue` are false, and the comparator returns 0 — that is the
final wildcard branch. -/
def cmpRecipes (s : RecipeSort) (a b : Recipe) : ℤ :=
  match s.field with
  | .difficulty =>
    if jsLtString a.difficulty b.difficulty then
      (if s.direction = .asc then -1 else 1)
    else if jsLtString b.difficulty a.difficulty then
      (if s.direction = .asc then 1 else -1)
    else 0
  | .datePublished =>
    match parseDateRev a.datePublished, parseDateRev b.datePublished with
    | some x, some y =>
      if x < y then (if s.direction = .asc then -1 else 1)
      else if y < x then (if s.direction = .asc then 1 else -1)
      else 0
    | _, _ => 0

/-- Insert into a sorted list, keeping the inserted element before later
elements that compare equal (stability). -/
def insertCmp (c : Recipe → Recipe → ℤ) (x : Recipe) :
    List Recipe → List Recipe
  | [] => [x]
  | y :: ys => if c x y ≤ 0 then x :: y :: ys else y :: insertCmp c x ys

/-- Stable comparator sort, modelling `Array.prototype.sort` (stable per
ES2019; for a consistent comparator every stable sort agrees with it). -/
def sortCmp (c : Recipe → Recipe → ℤ) : List Recipe → List Recipe
  | [] => []
  | x :: xs => insertCmp c x (sortCmp c xs)

/-- The sort phase of `getMockRecipes`, `src/lib/api.ts` lines 190-205. -/
def sortStep (s : Option RecipeSort) (l : List Recipe) : List Recipe :=
  match s with
  | none => l
  | some s => sortCmp (cmpRecipes s) l

/-- JS truthiness of an optional number: `undefined` and `0` are falsy. -/
def truthyNum : Option ℕ → Bool
  | some n => n ≠ 0
  | none => false

/-- The pagination phase of `getMockRecipes`, `src/lib/api.ts` lines
209-214: guarded by `offset || limit`, with `start = offset || 0` and
`end = limit ? start + limit : undefined`. -/
def paginate (limit offset : Option ℕ) (l : List Recipe) : List Recipe :=
  if truthyNum offset || truthyNum limit then
    let start := offset.getD 0
    match limit with
    | some lim => if lim ≠ 0 then (l.drop start).take lim else l.drop start
    | none => l.drop start
  else l

/-- The full mock query pipeline `getMockRecipes`, `src/lib/api.ts` lines
134-217, applied to an in-memory recipe list: filter, sort, take the
total, paginate. -/
def getMockRecipes (filters : Option RecipeFilters)
    (sort : Option RecipeSort) (limit offset : Option ℕ)
    (data : List Recipe) : List Recipe × ℕ :=
  let filtered := match filters with
    | none => data
    | some f => applyFilters f data
  let sorted := sortStep sort filtered
  let total := sorted.length
  (paginate limit offset sorted, total)

/-- Metric-to-imperial-and-back round trip of `convertUnits` on a single
quantity, the subject of the round-trip tolerance property. -/
def roundTripMetric (unit : String) (q : ℚ) : ℚ × String :=
  let f := convertUnits q unit .imperial
  convertUnits f.1 f.2 .metric

/-- The scaling formula exactly as the spec words it: the quantity times
`newServings / originalServings`, rounded to 2 decimals below 1, to
1 decimal in `[1, 10)`, and to the nearest integer at `10` and above. -/
def specScaledQuantity (q s n : ℚ) : ℚ :=
  let result := q * (n / s)
  if result < 1 then (jround (result * 100) : ℚ) / 100
  else if result < 10 then (jround (result * 10) : ℚ) / 10
  else (jround result : ℚ)

/-- The tiered rounding applied to the scaled quantity by
`scaleIngredientQuantity`. -/
def tieredRound (x : ℚ) : ℚ :=
  if x < 1 then (jround (x * 100) : ℚ) / 100
  else if x < 10 then (jround (x * 10) : ℚ) / 10
  else (jround x : ℚ)

/-- Per-recipe predicate of the search stage: `true` when the stage is
skipped. -/
def searchPred (o : Option String) (r : Recipe) : Bool :=
  match o with
  | some s => if s = "" then true else searchMatches s r
  | none => true

/-- Per-recipe predicate of the cuisine stage. -/
def cuisinePred (o : Option (List String)) (r : Recipe) : Bool :=
  match o with
  | some cs => if cs = [] then true else cs.contains r.cuisine
  | none => true

/-- Per-recipe predicate of the tags stage. -/
def tagsPred (o : Option (List String)) (r : Recipe) : Bool :=
  match o with
  | some ts => if ts = [] then true else ts.any fun tag => r.tags.contains tag
  | none => true

/-- Per-recipe predicate of the maxPrepTime stage. -/
def maxPrepPred (o : Option ℕ) (r : Recipe) : Bool :=
  match o with
  | some n => if n = 0 then true else decide (r.prepTimeMins ≤ n)
  | none => true

/-- Per-recipe predicate of the difficulty stage. -/
def difficultyPred (o : Option (List String)) (r : Recipe) : Bool :=
  match o with
  | some ds => if ds = [] then true else ds.contains r.difficulty
  | none => true

/-- The per-recipe predicate equivalent to the whole filter phase: each
stage contributes its predicate when its field is present and truthy, and
`true` otherwise. -/
def recipeMatches (f : RecipeFilters) (r : Recipe) : Bool :=
  searchPred f.search r && cuisinePred f.cuisine r && tagsPred f.tags r &&
    maxPrepPred f.maxPrepTime r && difficultyPred f.difficulty r

/-- A sample recipe with a five-minute preparation time. -/
def rPrep5 : Recipe := ⟨"t", "d", "British", "Easy", ["quick"], 5, "01/01/2024"⟩

/-- A sample recipe distinguished by `prepTimeMins`, for pagination runs. -/
def rNth (n : ℕ) : Recipe := ⟨"", "", "", "", [], n, ""⟩

/-- Sample recipe published 01/02/2024 (1 February). -/
def rFeb : Recipe := ⟨"a", "", "", "", [], 0, "01/02/2024"⟩

/-- Sample recipe published 15/01/2024 (15 January). -/
def rJan : Recipe := ⟨"b", "", "", "", [], 0, "15/01/2024"⟩

/-- Sample recipe with an unparseable `datePublished`. -/
def rBad : Recipe := ⟨"c", "", "", "", [], 0, "garbage"⟩

/-- Sample recipe with difficulty `Easy`. -/
def rEasy : Recipe := ⟨"e", "", "", "Easy", [], 0, ""⟩

/-- Sample recipe with difficulty `Medium`. -/
def rMed : Recipe := ⟨"m", "", "", "Medium", [], 0, ""⟩

/-- Sample recipe with difficulty `Hard`. -/
def rHard : Recipe := ⟨"h", "", "", "Hard", [], 0, ""⟩

/-- Sample recipe with cuisine `British` (capitalised). -/
def rBritish : Recipe := ⟨"t", "d", "British", "Easy", ["Vegan"], 5, ""⟩

/-- Evaluation helper: `jround x = n` once `n ≤ x + 1/2 < n + 1`. -/
theorem jround_eq {x : ℚ} {n : ℤ} (h1 : (n : ℚ) ≤ x + 1/2)
    (h2 : x + 1/2 < n + 1) : jround x = n := by
  rw [jround, Int.floor_eq_iff]
  · exact ⟨h1, by exact_mod_cast h2⟩

/-- The search stage is the filter by its predicate. -/
theorem searchStep_eq (o : Option String) (l : List Recipe) :
    searchStep o l = l.filter (searchPred o) := by
  cases o with
  | none => exact (List.filter_eq_self.mpr fun a _ => rfl).symm
  | some s =>
    by_cases h : s = ""
    · subst h
      exact (List.filter_eq_self.mpr fun a _ => rfl).symm
    · simp only [searchStep, if_neg h]
      exact List.filter_congr fun r hr => by simp [searchPred, h]

/-- The cuisine stage is the filter by its predicate. -/
theorem cuisineStep_eq (o : Option (List String)) (l : List Recipe) :
    cuisineStep o l = l.filter (cuisinePred o) := by
  cases o with
  | none => exact (List.filter_eq_self.mpr fun a _ => rfl).symm
  | some cs =>
    by_cases h : cs = []
    · subst h
      exact (List.filter_eq_self.mpr fun a _ => rfl).symm
    · simp only [cuisineStep, if_neg h]
      exact List.filter_congr fun r hr => by simp [cuisinePred, h]

/-- The tags stage is the filter by its predicate. -/
theorem tagsStep_eq (o : Option (List String)) (l : List Recipe) :
    tagsStep o l = l.filter (tagsPred o) := by
  cases o with
  | none => exact (List.filter_eq_self.mpr fun a _ => rfl).symm
  | some ts =>
    by_cases h : ts = []
    · subst h
      exact (List.filter_eq_self.mpr fun a _ => rfl).symm
    · simp only [tagsStep, if_neg h]
      exact List.filter_congr fun r hr => by simp [tagsPred, h]

/-- The maxPrepTime stage is the filter by its predicate. -/
theorem maxPrepStep_eq (o : Option ℕ) (l : List Recipe) :
    maxPrepStep o l = l.filter (maxPrepPred o) := by
  cases o with
  | none => exact (List.filter_eq_self.mpr fun a _ => rfl).symm
  | some n =>
    by_cases h : n = 0
    · subst h
      exact (List.filter_eq_self.mpr fun a _ => rfl).symm
    · simp only [maxPrepStep, if_neg h]
      exact List.filter_congr fun r hr => by simp [maxPrepPred, h]

/-- The difficulty stage is the filter by its predicate. -/
theorem difficultyStep_eq (o : Option (List String)) (l : List Recipe) :
    difficultyStep o l = l.filter (difficultyPred o) := by
  cases o with
  | none => exact (List.filter_eq_self.mpr fun a _ => rfl).symm
  | some ds =>
    by_cases h : ds = []
    · subst h
      exact (List.filter_eq_self.mpr fun a _ => rfl).symm
    · simp only [difficultyStep, if_neg h]
      exact List.filter_congr fun r hr => by simp [difficultyPred, h]

/-- Claim C1: the claim asserts the temperature special case of
`convertUnits` fires, giving `convertUnits 0 °C imperial = (32, °F)`,
`convertUnits 100 °C imperial = (212, °F)` and
`convertUnits 32 °F metric = (0, °C)`.  In the code the table lookup is
keyed on `unit.toLowerCase()`, which maps `°C`/`°F` to `°c`/`°f`; those
lowercased keys are absent from the table, so the lookup misses and the
function returns its input unchanged before the temperature branches —
despite the in-code comments `Special case handled below`.  This theorem
evaluates the code at the failing inputs. -/
theorem convertUnits_temperature_branches_unreachable :
    conversions (jsToLower "°C") = none ∧
    conversions (jsToLower "°F") = none ∧
    convertUnits 0 "°C" .imperial = (0, "°C") ∧
    convertUnits 100 "°C" .imperial = (100, "°C") ∧
    convertUnits 32 "°F" .metric = (32, "°F") := by
  have hC : conversions (jsToLower "°C") = none := by decide
  have hF : conversions (jsToLower "°F") = none := by decide
  refine ⟨hC, hF, ?_, ?_, ?_⟩ <;> simp [convertUnits, hC, hF]

/-- Claim C4 counterexample: the claim says a given `limit` of `0` yields
the empty slice; in the code `0` is falsy, so with `limit = 0` (offset
absent or `0`) the pagination guard `offset || limit` is skipped and the
whole list is returned. -/
theorem paginate_limit_zero_keeps_list :
    paginate (some 0) none [rPrep5] = [rPrep5] ∧
    paginate (some 0) (some 0) [rPrep5] = [rPrep5] ∧
    paginate (some 0) none [rPrep5] ≠ [] := by decide

/-- Claim C4 amended: pagination returns the input unchanged when both
`limit` and `offset` are absent or `0`; otherwise it returns the slice
starting at `offset` (defaulting to `0`), of length `limit` when `limit`
is a nonzero number, and extending to the end when `limit` is absent or
`0`.  In particular `paginate [r1..r10] limit=3 offset=3 = [r4, r5, r6]`. -/
theorem paginate_slice_semantics :
    (∀ l : List Recipe, paginate none none l = l) ∧
    (∀ (l : List Recipe) (off : ℕ),
      paginate none (some off) l = l.drop off) ∧
    (∀ (l : List Recipe) (off lim : ℕ),
      paginate (some lim) (some off) l =
        if lim = 0 then l.drop off else (l.drop off).take lim) ∧
    (∀ (l : List Recipe) (lim : ℕ),
      paginate (some lim) none l = if lim = 0 then l else l.take lim) ∧
    paginate (some 3) (some 3) ((List.range 10).map fun i => rNth (i + 1)) =
      [rNth 4, rNth 5, rNth 6] := by
  refine ⟨?_, ?_, ?_, ?_, by decide⟩
  · intro l
    simp [paginate, truthyNum]
  · intro l off
    by_cases h : off = 0 <;> simp [paginate, truthyNum, h]
  · intro l off lim
    by_cases ho : off = 0 <;> by_cases hl : lim = 0 <;>
      simp [paginate, truthyNum, ho, hl]
  · intro l lim
    by_cases hl : lim = 0 <;> simp [paginate, truthyNum, hl]

/-- Claim C6: sorting by `datePublished` reverses the day/month/year
tokens into year/month/day and compares the resulting calendar dates
chronologically; in general the ascending comparator on two parseable
dates is negative exactly when the first date is chronologically
earlier, and in particular recipes dated 01/02/2024 and 15/01/2024
sorted descending put the 01/02/2024 recipe first. -/
theorem datePublished_sort_reverses_tokens :
    (∀ (a b : Recipe) (x y : ℕ),
      parseDateRev a.datePublished = some x →
      parseDateRev b.datePublished = some y →
      (cmpRecipes ⟨.datePublished, .asc⟩ a b < 0 ↔ x < y)) ∧
    parseDateRev "01/02/2024" = some 20240201 ∧
    parseDateRev "15/01/2024" = some 20240115 ∧
    sortStep (some ⟨.datePublished, .desc⟩) [rJan, rFeb] = [rFeb, rJan] ∧
    sortStep (some ⟨.datePublished, .desc⟩) [rFeb, rJan] = [rFeb, rJan] := by
  refine ⟨?_, by decide, by decide, by decide, by decide⟩
  intro a b x y hx hy
  simp only [cmpRecipes, hx, hy]
  rcases lt_trichotomy x y with h | h | h
  · simp [h]
  · simp [h]
  · have h1 : ¬ x < y := by omega
    simp [h, h1]

/-- Claim C6 witness: the general comparator characterisation applied to
the recipes dated 15/01/2024 and 01/02/2024. -/
theorem datePublished_sort_reverses_tokens_witness :
    cmpRecipes ⟨.datePublished, .asc⟩ rJan rFeb < 0 ↔ 20240115 < 20240201 :=
  datePublished_sort_reverses_tokens.1 rJan rFeb 20240115 20240201
    (by decide) (by decide)

/-- Claim C9: sorting by difficulty ascending orders the labels by the
raw string comparison (lexicographic `Easy < Hard < Medium`), not by
severity `Easy < Medium < Hard`: the comparator puts `Hard` before
`Medium`, and a severity-ordered input `[Easy, Medium, Hard]` is
reordered to `[Easy, Hard, Medium]`. -/
theorem difficulty_sort_is_lexicographic :
    jsLtString "Easy" "Hard" = true ∧
    jsLtString "Hard" "Medium" = true ∧
    cmpRecipes ⟨.difficulty, .asc⟩ rHard rMed = -1 ∧
    cmpRecipes ⟨.difficulty, .asc⟩ rMed rEasy = 1 ∧
    sortStep (some ⟨.difficulty, .asc⟩) [rEasy, rMed, rHard] =
      [rEasy, rHard, rMed] := by decide

/-- Claim C2 counterexample: the claim says a recipe with unparseable
`datePublished` is compared as the earliest possible date, hence sorts
before every parseable date ascending (comparator `-1`); in the code the
Invalid Date timestamp is `NaN`, both comparisons are false and the
comparator returns `0`, so the record stays in place after the parseable
one. -/
theorem unparseable_date_not_earliest :
    cmpRecipes ⟨.datePublished, .asc⟩ rBad rJan = 0 ∧
    cmpRecipes ⟨.datePublished, .asc⟩ rBad rJan ≠ -1 ∧
    sortStep (some ⟨.datePublished, .asc⟩) [rJan, rBad] = [rJan, rBad] ∧
    sortStep (some ⟨.datePublished, .asc⟩) [rJan, rBad] ≠ [rBad, rJan] := by
  decide

/-- Claim C2 amended: a recipe whose `datePublished` fails to parse
compares equal (comparator `0`) to every recipe, in both operand
positions and in both directions, rather than as the earliest possible
date; the comparator is total, so sorting never throws and a single
malformed record does not abort sorting of the collection. -/
theorem unparseable_date_ties_everything :
    ∀ (dir : SortDir) (a b : Recipe),
      parseDateRev a.datePublished = none →
      cmpRecipes ⟨.datePublished, dir⟩ a b = 0 ∧
      cmpRecipes ⟨.datePublished, dir⟩ b a = 0 := by
  intro dir a b h
  constructor <;>
    cases hb : parseDateRev b.datePublished <;> simp [cmpRecipes, h, hb]

/-- Claim C2 witness: the amended statement applied to the sample
recipe with `datePublished = "garbage"` against a parseable one. -/
theorem unparseable_date_ties_everything_witness :
    parseDateRev rBad.datePublished = none ∧
    (cmpRecipes ⟨.datePublished, .asc⟩ rBad rJan = 0 ∧
     cmpRecipes ⟨.datePublished, .asc⟩ rJan rBad = 0) :=
  ⟨by decide, unparseable_date_ties_everything .asc rBad rJan (by decide)⟩

/-- Claim C10: the cuisine, tags and difficulty filters match by exact,
case-sensitive string equality: a singleton filter keeps a recipe
exactly when the stored string equals the filter value, and in
particular a value differing only in letter case (same `jsToLower`
image) excludes the recipe. -/
theorem member_filters_case_sensitive :
    (∀ (c : String) (r : Recipe),
      applyFilters ⟨none, some [c], none, none, none⟩ [r] =
        if r.cuisine = c then [r] else []) ∧
    (∀ (t : String) (r : Recipe),
      applyFilters ⟨none, none, some [t], none, none⟩ [r] =
        if t ∈ r.tags then [r] else []) ∧
    (∀ (d : String) (r : Recipe),
      applyFilters ⟨none, none, none, none, some [d]⟩ [r] =
        if r.difficulty = d then [r] else []) ∧
    jsToLower "british" = jsToLower rBritish.cuisine ∧
    applyFilters ⟨none, some ["british"], none, none, none⟩ [rBritish] = [] ∧
    jsToLower "vegan" = jsToLower "Vegan" ∧
    applyFilters ⟨none, none, some ["vegan"], none, none⟩ [rBritish] = [] ∧
    jsToLower "easy" = jsToLower rBritish.difficulty ∧
    applyFilters ⟨none, none, none, none, some ["easy"]⟩ [rBritish] = [] := by
  refine ⟨?_, ?_, ?_, by decide, by decide, by decide, by decide, by decide,
    by decide⟩
  · intro c r
    by_cases h : r.cuisine = c <;>
      simp [applyFilters, searchStep, cuisineStep, tagsStep, maxPrepStep,
        difficultyStep, h]
  · intro t r
    by_cases h : t ∈ r.tags <;>
      simp [applyFilters, searchStep, cuisineStep, tagsStep, maxPrepStep,
        difficultyStep, h]
  · intro d r
    by_cases h : r.difficulty = d <;>
      simp [applyFilters, searchStep, cuisineStep, tagsStep, maxPrepStep,
        difficultyStep, h]

/-- Claim C3 counterexample: the claim says a present `maxPrepTime`
bound of `0` keeps exactly the recipes with `prepTimeMins ≤ 0`; in the
code `0` is falsy and the bound is ignored, so a recipe with
`prepTimeMins = 5` passes. -/
theorem maxPrepTime_zero_imposes_no_constraint :
    applyFilters ⟨none, none, none, some 0, none⟩ [rPrep5] = [rPrep5] ∧
    ¬ rPrep5.prepTimeMins ≤ 0 := by decide

/-- Claim C3 amended: a recipe appears in the filtered output iff it
satisfies every applied stage predicate, where a stage applies when its
field is present and truthy — a nonempty search string, a nonempty
cuisine / tags / difficulty array, a nonzero `maxPrepTime` bound
(`maxPrepTime = 0` imposes no constraint) — and matching recipes keep
their relative input order: the output is exactly `l.filter`. -/
theorem applyFilters_eq_filter :
    ∀ (f : RecipeFilters) (l : List Recipe),
      applyFilters f l = l.filter (recipeMatches f) := by
  intro f l
  rw [applyFilters, searchStep_eq, cuisineStep_eq, tagsStep_eq,
    maxPrepStep_eq, difficultyStep_eq]
  simp only [List.filter_filter]
  apply List.filter_congr
  intro r hr
  simp only [recipeMatches]
  simp [Bool.and_assoc, Bool.and_comm, Bool.and_left_comm]

/-- `scaleIngredientQuantity` is the tiered rounding of the scaled
quantity. -/
theorem scaleIngredientQuantity_eq_tieredRound (q s n : ℚ) :
    scaleIngredientQuantity q s n = tieredRound (q * (n / s)) := rfl

/-- `jround` is monotone. -/
theorem jround_mono {x y : ℚ} (h : x ≤ y) : jround x ≤ jround y :=
  Int.floor_mono (by linarith)

/-- The tiered rounding is monotone, also across the tier boundaries at
`1` and `10`. -/
theorem tieredRound_mono {x y : ℚ} (h : x ≤ y) :
    tieredRound x ≤ tieredRound y := by
  simp only [tieredRound]
  by_cases hx1 : x < 1
  · by_cases hy1 : y < 1
    · simp only [if_pos hx1, if_pos hy1]
      have hj : jround (x * 100) ≤ jround (y * 100) := jround_mono (by linarith)
      have hc : ((jround (x * 100) : ℤ) : ℚ) ≤ ((jround (y * 100) : ℤ) : ℚ) := by
        exact_mod_cast hj
      linarith
    · simp only [if_pos hx1, if_neg hy1]
      have hy : (1 : ℚ) ≤ y := by linarith
      have hL : jround (x * 100) ≤ 100 := by
        have h1 : jround (x * 100) < 101 := by
          rw [jround]
          exact Int.floor_lt.mpr (by push_cast; linarith)
        omega
      have hLq : ((jround (x * 100) : ℤ) : ℚ) ≤ 100 := by exact_mod_cast hL
      by_cases hy10 : y < 10
      · simp only [if_pos hy10]
        have hR : (10 : ℤ) ≤ jround (y * 10) := by
          rw [jround]
          exact Int.le_floor.mpr (by push_cast; linarith)
        have hRq : (10 : ℚ) ≤ ((jround (y * 10) : ℤ) : ℚ) := by exact_mod_cast hR
        linarith
      · simp only [if_neg hy10]
        have hR : (1 : ℤ) ≤ jround y := by
          rw [jround]
          exact Int.le_floor.mpr (by push_cast; linarith)
        have hRq : (1 : ℚ) ≤ ((jround y : ℤ) : ℚ) := by exact_mod_cast hR
        linarith
  · have hx : (1 : ℚ) ≤ x := by linarith
    have hy1 : ¬ y < 1 := by linarith
    by_cases hx10 : x < 10
    · by_cases hy10 : y < 10
      · simp only [if_neg hx1, if_neg hy1, if_pos hx10, if_pos hy10]
        have hj : jround (x * 10) ≤ jround (y * 10) := jround_mono (by linarith)
        have hc : ((jround (x * 10) : ℤ) : ℚ) ≤ ((jround (y * 10) : ℤ) : ℚ) := by
          exact_mod_cast hj
        linarith
      · simp only [if_neg hx1, if_neg hy1, if_pos hx10, if_neg hy10]
        have hyTen : (10 : ℚ) ≤ y := by linarith
        have hL : jround (x * 10) ≤ 100 := by
          have h1 : jround (x * 10) < 101 := by
            rw [jround]
            exact Int.floor_lt.mpr (by push_cast; linarith)
          omega
        have hLq : ((jround (x * 10) : ℤ) : ℚ) ≤ 100 := by exact_mod_cast hL
        have hR : (10 : ℤ) ≤ jround y := by
          rw [jround]
          exact Int.le_floor.mpr (by push_cast; linarith)
        have hRq : (10 : ℚ) ≤ ((jround y : ℤ) : ℚ) := by exact_mod_cast hR
        linarith
    · have hy10 : ¬ y < 10 := by linarith
      simp only [if_neg hx1, if_neg hy1, if_neg hx10, if_neg hy10]
      exact_mod_cast jround_mono h

/-- Claim C7: for `originalServings ≠ 0`, `scaleIngredientQuantity`
computes `originalQuantity * (newServings / originalServings)` rounded
by the tier of the scaled result (2 decimals below 1, 1 decimal in
`[1, 10)`, nearest integer at 10 and above); in particular
`scaleIngredientQuantity 200 4 8 = 400` and
`scaleIngredientQuantity 0.5 4 6 = 0.75`. -/
theorem scaleIngredientQuantity_matches_spec :
    (∀ q s n : ℚ, s ≠ 0 →
      scaleIngredientQuantity q s n = specScaledQuantity q s n) ∧
    scaleIngredientQuantity 200 4 8 = 400 ∧
    scaleIngredientQuantity (1/2) 4 6 = 3/4 := by
  refine ⟨fun q s n _ => rfl, ?_, ?_⟩
  · have h : jround ((200 : ℚ) * (8 / 4)) = 400 :=
      jround_eq (by norm_num) (by norm_num)
    simp [scaleIngredientQuantity, h]
    norm_num
  · have h : jround ((75 : ℚ)) = 75 := jround_eq (by norm_num) (by norm_num)
    simp [scaleIngredientQuantity]
    norm_num [h]

/-- Claim C7 witness: the formula equivalence applied at
`originalQuantity = 200`, `originalServings = 4`, `newServings = 8`. -/
theorem scaleIngredientQuantity_matches_spec_witness :
    (4 : ℚ) ≠ 0 ∧
    scaleIngredientQuantity 200 4 8 = specScaledQuantity 200 4 8 :=
  ⟨by norm_num, scaleIngredientQuantity_matches_spec.1 200 4 8 (by norm_num)⟩

/-- Claim C8: for fixed positive `originalQuantity` and positive
`originalServings`, `scaleIngredientQuantity` is monotonically
non-decreasing in `newServings`, including across the rounding-tier
boundaries at 1 and 10. -/
theorem scaleIngredientQuantity_monotone :
    ∀ q s n₁ n₂ : ℚ, 0 < q → 0 < s → n₁ ≤ n₂ →
      scaleIngredientQuantity q s n₁ ≤ scaleIngredientQuantity q s n₂ := by
  intro q s n₁ n₂ hq hs hn
  rw [scaleIngredientQuantity_eq_tieredRound, scaleIngredientQuantity_eq_tieredRound]
  apply tieredRound_mono
  gcongr

/-- Claim C8 witness: monotonicity applied at quantity 1, servings 4,
new servings 6 and 8. -/
theorem scaleIngredientQuantity_monotone_witness :
    ((0 : ℚ) < 1 ∧ (0 : ℚ) < 4 ∧ (6 : ℚ) ≤ 8) ∧
    scaleIngredientQuantity 1 4 6 ≤ scaleIngredientQuantity 1 4 8 :=
  ⟨⟨by norm_num, by norm_num, by norm_num⟩,
   scaleIngredientQuantity_monotone 1 4 6 8 (by norm_num) (by norm_num)
     (by norm_num)⟩

/-- Claim C5 counterexample: the claim asserts every non-temperature
metric unit round-trips within the rounding tolerance; for `ml` at
quantity 1 the trip gives `1 ml → 0.03 fl oz → 0.89 ml`, an absolute
error of `0.11`, exceeding both the `0.01` tolerance that applies to the
sub-1 result and even the coarser `0.1` tolerance. -/
theorem roundTrip_ml_breaks_tolerance :
    roundTripMetric "ml" 1 = (89/100, "ml") ∧
    (roundTripMetric "ml" 1).1 < 1 ∧
    ¬ |(1 : ℚ) - (roundTripMetric "ml" 1).1| ≤ 1/100 ∧
    ¬ |(1 : ℚ) - (roundTripMetric "ml" 1).1| ≤ 1/10 := by
  have h1 : jround ((16907 : ℚ) / 5000) = 3 :=
    jround_eq (by norm_num) (by norm_num)
  have e1 : convertUnits 1 "ml" .imperial = (3/100, "fl oz") := by
    simp [convertUnits, jsToLower, conversions, UnitConversion.select]
    norm_num [h1]
  have h2 : jround ((177441 : ℚ) / 2000) = 89 :=
    jround_eq (by norm_num) (by norm_num)
  have e2 : convertUnits (3/100) "fl oz" .metric = (89/100, "ml") := by
    simp [convertUnits, jsToLower, conversions, UnitConversion.select]
    norm_num [h2]
  have e : roundTripMetric "ml" 1 = (89/100, "ml") := by
    simp only [roundTripMetric, e1]
    exact e2
  refine ⟨e, ?_, ?_, ?_⟩
  · rw [e]; norm_num
  · rw [e]
    rw [show (1 : ℚ) - 89/100 = 11/100 by norm_num,
      abs_of_nonneg (by norm_num : (0 : ℚ) ≤ 11/100)]
    norm_num
  · rw [e]
    rw [show (1 : ℚ) - 89/100 = 11/100 by norm_num,
      abs_of_nonneg (by norm_num : (0 : ℚ) ≤ 11/100)]
    norm_num

/-- Claim C5 amended: the round-trip tolerance does not hold for every
non-temperature unit; at quantity 1 it holds for the weight units — `g`
round-trips to `1.1` (error `0.1`, within the `≤ 0.1` tolerance for
results at least 1) and `kg` round-trips exactly to `1` — while `ml`
errs by `0.11` and `l` does not even return to litres: its round trip
lands in `ml`. -/
theorem roundTrip_weight_units_within_tolerance :
    roundTripMetric "g" 1 = (11/10, "g") ∧
    (1 : ℚ) ≤ (roundTripMetric "g" 1).1 ∧
    |(1 : ℚ) - (roundTripMetric "g" 1).1| ≤ 1/10 ∧
    roundTripMetric "kg" 1 = (1, "kg") ∧
    |(1 : ℚ) - (roundTripMetric "kg" 1).1| ≤ 1/10 ∧
    (roundTripMetric "l" 1).2 = "ml" := by
  have hg1 : jround ((17637 : ℚ) / 5000) = 4 :=
    jround_eq (by norm_num) (by norm_num)
  have eg1 : convertUnits 1 "g" .imperial = (1/25, "oz") := by
    simp [convertUnits, jsToLower, conversions, UnitConversion.select]
    norm_num [hg1]
  have hg2 : jround ((56699 : ℚ) / 5000) = 11 :=
    jround_eq (by norm_num) (by norm_num)
  have eg2 : convertUnits (1/25) "oz" .metric = (11/10, "g") := by
    simp [convertUnits, jsToLower, conversions, UnitConversion.select]
    norm_num [hg2]
  have eg : roundTripMetric "g" 1 = (11/10, "g") := by
    simp only [roundTripMetric, eg1]
    exact eg2
  have hk1 : jround ((110231 : ℚ) / 5000) = 22 :=
    jround_eq (by norm_num) (by norm_num)
  have ek1 : convertUnits 1 "kg" .imperial = (11/5, "lb") := by
    simp [convertUnits, jsToLower, conversions, UnitConversion.select]
    norm_num [hk1]
  have hk2 : jround ((623689 : ℚ) / 6250) = 100 :=
    jround_eq (by norm_num) (by norm_num)
  have ek2 : convertUnits (11/5) "lb" .metric = (1, "kg") := by
    simp [convertUnits, jsToLower, conversions, UnitConversion.select]
    norm_num [hk2]
  have ek : roundTripMetric "kg" 1 = (1, "kg") := by
    simp only [roundTripMetric, ek1]
    exact ek2
  have hl1 : jround ((7039 : ℚ) / 400) = 18 :=
    jround_eq (by norm_num) (by norm_num)
  have el1 : convertUnits 1 "l" .imperial = (9/5, "pint") := by
    simp [convertUnits, jsToLower, conversions, UnitConversion.select]
    norm_num [hl1]
  have hl2 : jround ((5114349 : ℚ) / 500) = 10229 :=
    jround_eq (by norm_num) (by norm_num)
  have el2 : convertUnits (9/5) "pint" .metric = (10229/10, "ml") := by
    simp [convertUnits, jsToLower, conversions, UnitConversion.select]
    norm_num [hl2]
  have el : roundTripMetric "l" 1 = (10229/10, "ml") := by
    simp only [roundTripMetric, el1]
    exact el2
  refine ⟨eg, ?_, ?_, ek, ?_, ?_⟩
  · rw [eg]; norm_num
  · rw [eg]
    rw [show |(1 : ℚ) - 11/10| = 1/10 by
      rw [abs_of_nonpos (by norm_num)]; norm_num]
  · rw [ek]; norm_num
  · rw [el]

end RecipeSite
